import Mathlib

/-!
Shallow embedding of a Portable Executable (PE) parser.

File content is modelled as `List Nat` (one element per byte).  Multi-byte
integers are little-endian.  Fallible parsing steps return `Except PEError`.
Go's `binary.Read` fails with `io.EOF` when zero bytes are available and with
`io.ErrUnexpectedEOF` on a partial record; loops in the source that break on
`io.EOF` are modelled by an explicit empty-input case, and partial records
become `truncationError`.  Go panics (unsupported data-directory indices and
debug types) are modelled as errors.
-/

deriving instance DecidableEq for Except

namespace PE

set_option autoImplicit false

/-- Error outcomes of the parser.  `eofError` models the `io.EOF` sentinel that
the base-relocation block loop intercepts to terminate; `outOfFuel` is the
artificial bound of the fuelled import-name-table loop (the Go loop has no
static bound); panics in the dispatchers are modelled as
`unsupportedDirectory` / `invalidDirectoryIndex` / `unsupportedDebugType`. -/
inductive PEError where
  | truncationError
  | addressResolutionError
  | signatureError (expected got : List Nat)
  | magicError (expected32 expected64 got : Nat)
  | unsupportedDirectory (idx : Nat)
  | invalidDirectoryIndex (idx : Nat)
  | unsupportedDebugType (typ : Nat)
  | eofError
  | outOfFuel
  deriving DecidableEq

/-- Little-endian 16-bit value from two bytes. -/
def le16 (b0 b1 : Nat) : Nat := b0 + 256 * b1

/-- Little-endian 32-bit value from four bytes. -/
def le32 (b0 b1 b2 b3 : Nat) : Nat :=
  b0 + 256 * b1 + 65536 * b2 + 16777216 * b3

/-- Little-endian 64-bit value from eight bytes. -/
def le64 (b0 b1 b2 b3 b4 b5 b6 b7 : Nat) : Nat :=
  le32 b0 b1 b2 b3 + 4294967296 * le32 b4 b5 b6 b7

/-- Little-endian 16-bit read at position `p` (missing bytes read as 0; all
reads through this helper are guarded by an explicit length check). -/
def le16At (c : List Nat) (p : Nat) : Nat :=
  le16 (c.getD p 0) (c.getD (p + 1) 0)

/-- Little-endian 32-bit read at position `p`. -/
def le32At (c : List Nat) (p : Nat) : Nat :=
  le32 (c.getD p 0) (c.getD (p + 1) 0) (c.getD (p + 2) 0) (c.getD (p + 3) 0)

/-- Little-endian 64-bit read at position `p`. -/
def le64At (c : List Nat) (p : Nat) : Nat :=
  le64 (c.getD p 0) (c.getD (p + 1) 0) (c.getD (p + 2) 0) (c.getD (p + 3) 0)
    (c.getD (p + 4) 0) (c.getD (p + 5) 0) (c.getD (p + 6) 0) (c.getD (p + 7) 0)

/-- Little-endian encoding of a 32-bit value into four bytes. -/
def enc32 (n : Nat) : List Nat :=
  [n % 256, n / 256 % 256, n / 65536 % 256, n / 16777216 % 256]

/-- Read a 16-bit little-endian value at `p`, failing if fewer than two bytes
are available (mirrors `binary.Read` of a `uint16`). -/
def rdU16 (c : List Nat) (p : Nat) : Option (Nat × Nat) :=
  if p + 2 ≤ c.length then some (le16At c p, p + 2) else none

/-- Read a 32-bit little-endian value at `p`, failing if fewer than four bytes
are available (mirrors `binary.Read` of a `uint32`). -/
def rdU32 (c : List Nat) (p : Nat) : Option (Nat × Nat) :=
  if p + 4 ≤ c.length then some (le32At c p, p + 4) else none

/-- Modelled from the spec: `parseCString` (not among the source files) takes
the bytes of a NUL-terminated string, i.e. everything before the first 0. -/
def parseCString (bs : List Nat) : List Nat :=
  bs.takeWhile (fun b => b != 0)

/-- COFF file header, decoded.  The source converts `Date` to a `time.Time`
via `parseDateFromEpoch` (not among the source files); the timestamp is kept
here as raw seconds since the epoch. -/
structure FileHeader where
  Machine : Nat
  NSections : Nat
  Date : Nat
  SymbolTableOffset : Nat
  NSymbols : Nat
  OptHdrSize : Nat
  Characteristics : Nat
  deriving DecidableEq

/-- COFF file header in raw format (`pe.RawFileHeader`). -/
structure RawFileHeader where
  Machine : Nat
  NSections : Nat
  Date : Nat
  SymbolTableOffset : Nat
  NSymbols : Nat
  OptHdrSize : Nat
  Characteristics : Nat
  deriving DecidableEq

/-- `RawFileHeader.FileHeader` of raw.go (timestamp kept raw, see above). -/
def goFileHeader (raw : RawFileHeader) : FileHeader :=
  { Machine := raw.Machine
  , NSections := raw.NSections
  , Date := raw.Date
  , SymbolTableOffset := raw.SymbolTableOffset
  , NSymbols := raw.NSymbols
  , OptHdrSize := raw.OptHdrSize
  , Characteristics := raw.Characteristics }

/-- Optional header of a 32-bit PE file in raw format (`pe.RawOptHeader32`,
magic excluded, as in the source). -/
structure RawOptHeader32 where
  MajorLinkerVer : Nat
  MinorLinkerVer : Nat
  CodeSize : Nat
  InitializedDataSize : Nat
  UninitializedDataSize : Nat
  EntryRelAddr : Nat
  CodeBase : Nat
  DataBase : Nat
  ImageBase : Nat
  SectionAlign : Nat
  FileAlign : Nat
  MajorOSVer : Nat
  MinorOSVer : Nat
  MajorImageVer : Nat
  MinorImageVer : Nat
  MajorSubsystemVer : Nat
  MinorSubsystemVer : Nat
  Win32Ver : Nat
  ImageSize : Nat
  HeadersSize : Nat
  Checksum : Nat
  Subsystem : Nat
  DLLCharacteristics : Nat
  ReservedStackSize : Nat
  InitialStackSize : Nat
  ReservedHeapSize : Nat
  InitialHeapSize : Nat
  LoaderFlags : Nat
  NDataDirs : Nat
  deriving DecidableEq

/-- Optional header of a 64-bit PE file in raw format (`pe.RawOptHeader64`;
no `DataBase` field, 64-bit image base and stack/heap sizes). -/
structure RawOptHeader64 where
  MajorLinkerVer : Nat
  MinorLinkerVer : Nat
  CodeSize : Nat
  InitializedDataSize : Nat
  UninitializedDataSize : Nat
  EntryRelAddr : Nat
  CodeBase : Nat
  ImageBase : Nat
  SectionAlign : Nat
  FileAlign : Nat
  MajorOSVer : Nat
  MinorOSVer : Nat
  MajorImageVer : Nat
  MinorImageVer : Nat
  MajorSubsystemVer : Nat
  MinorSubsystemVer : Nat
  Win32Ver : Nat
  ImageSize : Nat
  HeadersSize : Nat
  Checksum : Nat
  Subsystem : Nat
  DLLCharacteristics : Nat
  ReservedStackSize : Nat
  InitialStackSize : Nat
  ReservedHeapSize : Nat
  InitialHeapSize : Nat
  LoaderFlags : Nat
  NDataDirs : Nat
  deriving DecidableEq

/-- Unified optional header (`OptHeader`): pointer-width fields are 64-bit
regardless of the source layout; carries the resolved magic. -/
structure OptHeader where
  Magic : Nat
  MajorLinkerVer : Nat
  MinorLinkerVer : Nat
  CodeSize : Nat
  InitializedDataSize : Nat
  UninitializedDataSize : Nat
  EntryRelAddr : Nat
  CodeBase : Nat
  DataBase : Nat
  ImageBase : Nat
  SectionAlign : Nat
  FileAlign : Nat
  MajorOSVer : Nat
  MinorOSVer : Nat
  MajorImageVer : Nat
  MinorImageVer : Nat
  MajorSubsystemVer : Nat
  MinorSubsystemVer : Nat
  Win32Ver : Nat
  ImageSize : Nat
  HeadersSize : Nat
  Checksum : Nat
  Subsystem : Nat
  DLLCharacteristics : Nat
  ReservedStackSize : Nat
  InitialStackSize : Nat
  ReservedHeapSize : Nat
  InitialHeapSize : Nat
  LoaderFlags : Nat
  NDataDirs : Nat
  deriving DecidableEq

/-- `RawOptHeader32.OptHeader` of raw.go. -/
def goOptHeader32 (raw : RawOptHeader32) (magic : Nat) : OptHeader :=
  { Magic := magic
  , MajorLinkerVer := raw.MajorLinkerVer
  , MinorLinkerVer := raw.MinorLinkerVer
  , CodeSize := raw.CodeSize
  , InitializedDataSize := raw.InitializedDataSize
  , UninitializedDataSize := raw.UninitializedDataSize
  , EntryRelAddr := raw.EntryRelAddr
  , CodeBase := raw.CodeBase
  , DataBase := raw.DataBase
  , ImageBase := raw.ImageBase
  , SectionAlign := raw.SectionAlign
  , FileAlign := raw.FileAlign
  , MajorOSVer := raw.MajorOSVer
  , MinorOSVer := raw.MinorOSVer
  , MajorImageVer := raw.MajorImageVer
  , MinorImageVer := raw.MinorImageVer
  , MajorSubsystemVer := raw.MajorSubsystemVer
  , MinorSubsystemVer := raw.MinorSubsystemVer
  , Win32Ver := raw.Win32Ver
  , ImageSize := raw.ImageSize
  , HeadersSize := raw.HeadersSize
  , Checksum := raw.Checksum
  , Subsystem := raw.Subsystem
  , DLLCharacteristics := raw.DLLCharacteristics
  , ReservedStackSize := raw.ReservedStackSize
  , InitialStackSize := raw.InitialStackSize
  , ReservedHeapSize := raw.ReservedHeapSize
  , InitialHeapSize := raw.InitialHeapSize
  , LoaderFlags := raw.LoaderFlags
  , NDataDirs := raw.NDataDirs }

/-- `RawOptHeader64.OptHeader` of raw.go (the Go struct literal omits
`DataBase`, so it is the zero value). -/
def goOptHeader64 (raw : RawOptHeader64) (magic : Nat) : OptHeader :=
  { Magic := magic
  , MajorLinkerVer := raw.MajorLinkerVer
  , MinorLinkerVer := raw.MinorLinkerVer
  , CodeSize := raw.CodeSize
  , InitializedDataSize := raw.InitializedDataSize
  , UninitializedDataSize := raw.UninitializedDataSize
  , EntryRelAddr := raw.EntryRelAddr
  , CodeBase := raw.CodeBase
  , DataBase := 0
  , ImageBase := raw.ImageBase
  , SectionAlign := raw.SectionAlign
  , FileAlign := raw.FileAlign
  , MajorOSVer := raw.MajorOSVer
  , MinorOSVer := raw.MinorOSVer
  , MajorImageVer := raw.MajorImageVer
  , MinorImageVer := raw.MinorImageVer
  , MajorSubsystemVer := raw.MajorSubsystemVer
  , MinorSubsystemVer := raw.MinorSubsystemVer
  , Win32Ver := raw.Win32Ver
  , ImageSize := raw.ImageSize
  , HeadersSize := raw.HeadersSize
  , Checksum := raw.Checksum
  , Subsystem := raw.Subsystem
  , DLLCharacteristics := raw.DLLCharacteristics
  , ReservedStackSize := raw.ReservedStackSize
  , InitialStackSize := raw.InitialStackSize
  , ReservedHeapSize := raw.ReservedHeapSize
  , InitialHeapSize := raw.InitialHeapSize
  , LoaderFlags := raw.LoaderFlags
  , NDataDirs := raw.NDataDirs }

/-- A data directory entry: (relative virtual address, size). -/
structure DataDirectory where
  RelAddr : Nat
  Size : Nat
  deriving DecidableEq

/-- Section header in raw format (`pe.RawSectionHeader`); `Name` is the raw
8-byte field. -/
structure RawSectionHeader where
  Name : List Nat
  VirtualSize : Nat
  RelAddr : Nat
  DataSize : Nat
  DataOffset : Nat
  RelocsOffset : Nat
  LineNumsOffset : Nat
  NRelocs : Nat
  NLineNums : Nat
  Flags : Nat
  deriving DecidableEq

/-- Section header, decoded (`SectionHeader`); `Name` holds the bytes of the
NUL-terminated name. -/
structure SectionHeader where
  Name : List Nat
  VirtualSize : Nat
  RelAddr : Nat
  DataSize : Nat
  DataOffset : Nat
  RelocsOffset : Nat
  LineNumsOffset : Nat
  NRelocs : Nat
  NLineNums : Nat
  Flags : Nat
  deriving DecidableEq

/-- `RawSectionHeader.SectionHeader` of raw.go. -/
def goSectionHeader (raw : RawSectionHeader) : SectionHeader :=
  { Name := parseCString raw.Name
  , VirtualSize := raw.VirtualSize
  , RelAddr := raw.RelAddr
  , DataSize := raw.DataSize
  , DataOffset := raw.DataOffset
  , RelocsOffset := raw.RelocsOffset
  , LineNumsOffset := raw.LineNumsOffset
  , NRelocs := raw.NRelocs
  , NLineNums := raw.NLineNums
  , Flags := raw.Flags }

/-- `rva` lies in the section's virtual range
`[RelAddr, RelAddr + VirtualSize)`. -/
def sectionContains (s : SectionHeader) (rva : Nat) : Prop :=
  s.RelAddr ≤ rva ∧ rva < s.RelAddr + s.VirtualSize

/-- Boolean form of `sectionContains`, used by the section search. -/
def sectionContainsB (rva : Nat) (s : SectionHeader) : Bool :=
  decide (s.RelAddr ≤ rva) && decide (rva < s.RelAddr + s.VirtualSize)

instance (s : SectionHeader) (rva : Nat) : Decidable (sectionContains s rva) := by
  unfold sectionContains
  infer_instance

/-- Modelled from the spec: the address translator (`File.ReadData` is not
among the source files; §4.2 of the spec).  Search the section table for the
section whose virtual range contains `rva`; if none, fail with an
address-resolution error.  Otherwise the file offset is
`DataOffset + (rva - RelAddr)`; if the requested range exceeds the section's
on-disk extent or the available content, fail with a truncation error,
otherwise return `content[offset .. offset+len)`. -/
def resolve (content : List Nat) (sectHdrs : List SectionHeader)
    (rva len : Nat) : Except PEError (List Nat) :=
  match sectHdrs.find? (sectionContainsB rva) with
  | none => .error .addressResolutionError
  | some s =>
    if rva - s.RelAddr + len ≤ s.DataSize ∧
        s.DataOffset + (rva - s.RelAddr) + len ≤ content.length then
      .ok ((content.drop (s.DataOffset + (rva - s.RelAddr))).take len)
    else .error .truncationError

/-- Modelled from the spec: `File.ReadData` takes an absolute virtual address
(image base + RVA), as at every call site in the source, and resolves the RVA
through the section table. -/
def ReadData (content : List Nat) (sectHdrs : List SectionHeader)
    (imageBase addr len : Nat) : Except PEError (List Nat) :=
  resolve content sectHdrs (addr - imageBase) len

/-- Magic value of optional header for PE32 (32-bit). -/
def magic32 : Nat := 0x010B

/-- Magic value of optional header for PE32+ (64-bit). -/
def magic64 : Nat := 0x020B

/-- PE signature bytes (`"PE\x00\x00"`). -/
def peSignature : List Nat := [80, 69, 0, 0]

/-- `binary.Read` of a `pe.RawFileHeader` (20 bytes) at position `p`:
machine (2), section count (2), timestamp (4), symbol-table offset (4),
symbol count (4), optional-header size (2), characteristics (2). -/
def rdRawFileHeader (c : List Nat) (p : Nat) : Option (RawFileHeader × Nat) :=
  if p + 20 ≤ c.length then
    some ({ Machine := le16At c p
          , NSections := le16At c (p + 2)
          , Date := le32At c (p + 4)
          , SymbolTableOffset := le32At c (p + 8)
          , NSymbols := le32At c (p + 12)
          , OptHdrSize := le16At c (p + 16)
          , Characteristics := le16At c (p + 18) }, p + 20)
  else none

/-- `parseFileHeader`: read the 4-byte PE-header pointer at file offset 0x3C,
seek there, check the `"PE\x00\x00"` signature, then read the COFF header. -/
def parseFileHeader (c : List Nat) : Except PEError (FileHeader × Nat) :=
  match rdU32 c 0x3C with
  | none => .error .truncationError
  | some (offset, _) =>
    if offset + 4 ≤ c.length then
      let sig := (c.drop offset).take 4
      if sig = peSignature then
        match rdRawFileHeader c (offset + 4) with
        | none => .error .truncationError
        | some (raw, q) => .ok (goFileHeader raw, q)
      else .error (.signatureError peSignature sig)
    else .error .truncationError

/-- `binary.Read` of a `pe.RawOptHeader32` (94 bytes after the magic) at
position `p`; field positions follow the raw.go offsets minus the 2-byte
magic. -/
def rdRawOptHeader32 (c : List Nat) (p : Nat) : Option (RawOptHeader32 × Nat) :=
  if p + 94 ≤ c.length then
    some ({ MajorLinkerVer := c.getD p 0
          , MinorLinkerVer := c.getD (p + 1) 0
          , CodeSize := le32At c (p + 2)
          , InitializedDataSize := le32At c (p + 6)
          , UninitializedDataSize := le32At c (p + 10)
          , EntryRelAddr := le32At c (p + 14)
          , CodeBase := le32At c (p + 18)
          , DataBase := le32At c (p + 22)
          , ImageBase := le32At c (p + 26)
          , SectionAlign := le32At c (p + 30)
          , FileAlign := le32At c (p + 34)
          , MajorOSVer := le16At c (p + 38)
          , MinorOSVer := le16At c (p + 40)
          , MajorImageVer := le16At c (p + 42)
          , MinorImageVer := le16At c (p + 44)
          , MajorSubsystemVer := le16At c (p + 46)
          , MinorSubsystemVer := le16At c (p + 48)
          , Win32Ver := le32At c (p + 50)
          , ImageSize := le32At c (p + 54)
          , HeadersSize := le32At c (p + 58)
          , Checksum := le32At c (p + 62)
          , Subsystem := le16At c (p + 66)
          , DLLCharacteristics := le16At c (p + 68)
          , ReservedStackSize := le32At c (p + 70)
          , InitialStackSize := le32At c (p + 74)
          , ReservedHeapSize := le32At c (p + 78)
          , InitialHeapSize := le32At c (p + 82)
          , LoaderFlags := le32At c (p + 86)
          , NDataDirs := le32At c (p + 90) }, p + 94)
  else none

/-- `binary.Read` of a `pe.RawOptHeader64` (110 bytes after the magic) at
position `p`. -/
def rdRawOptHeader64 (c : List Nat) (p : Nat) : Option (RawOptHeader64 × Nat) :=
  if p + 110 ≤ c.length then
    some ({ MajorLinkerVer := c.getD p 0
          , MinorLinkerVer := c.getD (p + 1) 0
          , CodeSize := le32At c (p + 2)
          , InitializedDataSize := le32At c (p + 6)
          , UninitializedDataSize := le32At c (p + 10)
          , EntryRelAddr := le32At c (p + 14)
          , CodeBase := le32At c (p + 18)
          , ImageBase := le64At c (p + 22)
          , SectionAlign := le32At c (p + 30)
          , FileAlign := le32At c (p + 34)
          , MajorOSVer := le16At c (p + 38)
          , MinorOSVer := le16At c (p + 40)
          , MajorImageVer := le16At c (p + 42)
          , MinorImageVer := le16At c (p + 44)
          , MajorSubsystemVer := le16At c (p + 46)
          , MinorSubsystemVer := le16At c (p + 48)
          , Win32Ver := le32At c (p + 50)
          , ImageSize := le32At c (p + 54)
          , HeadersSize := le32At c (p + 58)
          , Checksum := le32At c (p + 62)
          , Subsystem := le16At c (p + 66)
          , DLLCharacteristics := le16At c (p + 68)
          , ReservedStackSize := le64At c (p + 70)
          , InitialStackSize := le64At c (p + 78)
          , ReservedHeapSize := le64At c (p + 86)
          , InitialHeapSize := le64At c (p + 94)
          , LoaderFlags := le32At c (p + 102)
          , NDataDirs := le32At c (p + 106) }, p + 110)
  else none

/-- `parseOptHeader`: read the 2-byte magic; `0x010B` selects the 32-bit
layout, `0x020B` the 64-bit layout; any other value fails with an error
carrying both accepted magics and the value found. -/
def parseOptHeader (c : List Nat) (p : Nat) : Except PEError (OptHeader × Nat) :=
  match rdU16 c p with
  | none => .error .truncationError
  | some (magic, q) =>
    if magic = magic32 then
      match rdRawOptHeader32 c q with
      | none => .error .truncationError
      | some (raw, r) => .ok (goOptHeader32 raw magic, r)
    else if magic = magic64 then
      match rdRawOptHeader64 c q with
      | none => .error .truncationError
      | some (raw, r) => .ok (goOptHeader64 raw magic, r)
    else .error (.magicError magic32 magic64 magic)

/-- `binary.Read` of one `DataDirectory` entry (8 bytes) at position `p`. -/
def rdDataDirectory (c : List Nat) (p : Nat) : Option (DataDirectory × Nat) :=
  if p + 8 ≤ c.length then
    some ({ RelAddr := le32At c p, Size := le32At c (p + 4) }, p + 8)
  else none

/-- `File.parseDataDirs`: read `n` consecutive data-directory entries; any
short read fails the parse. -/
def parseDataDirsLoop (c : List Nat) : Nat → Nat → Except PEError (List DataDirectory × Nat)
  | p, 0 => .ok ([], p)
  | p, n + 1 =>
    match rdDataDirectory c p with
    | none => .error .truncationError
    | some (dd, q) =>
      match parseDataDirsLoop c q n with
      | .ok (dds, r) => .ok (dd :: dds, r)
      | .error e => .error e

/-- `binary.Read` of a `pe.RawSectionHeader` (40 bytes) at position `p`. -/
def rdRawSectionHeader (c : List Nat) (p : Nat) : Option (RawSectionHeader × Nat) :=
  if p + 40 ≤ c.length then
    some ({ Name := (c.drop p).take 8
          , VirtualSize := le32At c (p + 8)
          , RelAddr := le32At c (p + 12)
          , DataSize := le32At c (p + 16)
          , DataOffset := le32At c (p + 20)
          , RelocsOffset := le32At c (p + 24)
          , LineNumsOffset := le32At c (p + 28)
          , NRelocs := le16At c (p + 32)
          , NLineNums := le16At c (p + 34)
          , Flags := le32At c (p + 36) }, p + 40)
  else none

/-- `File.parseSectionHdrs`: read `n` consecutive section headers; any short
read fails the parse. -/
def parseSectionHdrsLoop (c : List Nat) : Nat → Nat → Except PEError (List SectionHeader × Nat)
  | p, 0 => .ok ([], p)
  | p, n + 1 =>
    match rdRawSectionHeader c p with
    | none => .error .truncationError
    | some (raw, q) =>
      match parseSectionHdrsLoop c q n with
      | .ok (hdrs, r) => .ok (goSectionHeader raw :: hdrs, r)
      | .error e => .error e

/-- Import directory record in raw format (`pe.RawImportDirectory`).
Modelled from the spec: the raw layout type lives outside the source files;
the record is the standard fixed-size (20-byte) import descriptor, five
little-endian 32-bit fields. -/
structure RawImportDirectory where
  INTRelAddr : Nat
  Date : Nat
  ForwarderChain : Nat
  NameRelAddr : Nat
  IATRelAddr : Nat
  deriving DecidableEq

/-- The all-zero import descriptor (the Go code compares against the zero
value of the struct). -/
def zeroRawImportDirectory : RawImportDirectory :=
  { INTRelAddr := 0, Date := 0, ForwarderChain := 0, NameRelAddr := 0, IATRelAddr := 0 }

/-- Import directory record, decoded. Modelled from the spec: the conversion
`File.goImportDirectory` is not among the source files; the descriptor's
fields are carried over one-to-one (§3, field copies are out of scope). -/
structure ImportDirectory where
  INTRelAddr : Nat
  Date : Nat
  ForwarderChain : Nat
  NameRelAddr : Nat
  IATRelAddr : Nat
  deriving DecidableEq

/-- Modelled from the spec: plain field copy from the raw import descriptor. -/
def goImportDirectory (raw : RawImportDirectory) : ImportDirectory :=
  { INTRelAddr := raw.INTRelAddr
  , Date := raw.Date
  , ForwarderChain := raw.ForwarderChain
  , NameRelAddr := raw.NameRelAddr
  , IATRelAddr := raw.IATRelAddr }

/-- The loop of `File.parseImportDirs` over the directory's byte range:
`binary.Read` of 20-byte records; an empty rest is `io.EOF` and terminates
the loop successfully; a partial record is `io.ErrUnexpectedEOF` and fails;
an all-zero record is the sentinel terminator and is discarded. -/
def parseImportDirsLoop : List Nat → Except PEError (List ImportDirectory)
  | [] => .ok []
  | b0 :: b1 :: b2 :: b3 :: b4 :: b5 :: b6 :: b7 :: b8 :: b9 ::
    b10 :: b11 :: b12 :: b13 :: b14 :: b15 :: b16 :: b17 :: b18 :: b19 :: rest =>
    let raw : RawImportDirectory :=
      { INTRelAddr := le32 b0 b1 b2 b3
      , Date := le32 b4 b5 b6 b7
      , ForwarderChain := le32 b8 b9 b10 b11
      , NameRelAddr := le32 b12 b13 b14 b15
      , IATRelAddr := le32 b16 b17 b18 b19 }
    if raw = zeroRawImportDirectory then .ok []
    else
      match parseImportDirsLoop rest with
      | .ok dirs => .ok (goImportDirectory raw :: dirs)
      | .error e => .error e
  | _ => .error .truncationError

/-- `File.parseImportDirs`: fetch the directory's byte range through the
address translator, then run the descriptor loop. -/
def parseImportDirs (content : List Nat) (sectHdrs : List SectionHeader)
    (optHdr : OptHeader) (dataDir : DataDirectory) : Except PEError (List ImportDirectory) :=
  match ReadData content sectHdrs optHdr.ImageBase (optHdr.ImageBase + dataDir.RelAddr) dataDir.Size with
  | .error e => .error e
  | .ok buf => parseImportDirsLoop buf

/-- Modelled from the spec: an import name/address table entry retains the
raw value and its most-significant-bit interpretation (ordinal if set, name
reference if clear); `goINTEntry32`/`goINTEntry64` are not among the source
files. -/
structure INTEntry where
  Raw : Nat
  IsOrdinal : Bool
  deriving DecidableEq

/-- Modelled from the spec: 32-bit table entry, bit 31 selects ordinal. -/
def goINTEntry32 (raw : Nat) : INTEntry :=
  { Raw := raw, IsOrdinal := raw.testBit 31 }

/-- Modelled from the spec: 64-bit table entry, bit 63 selects ordinal. -/
def goINTEntry64 (raw : Nat) : INTEntry :=
  { Raw := raw, IsOrdinal := raw.testBit 63 }

/-- The loop of `File.parseINTs` starting at absolute virtual address `addr`:
each iteration reads one 4-byte (PE32) or 8-byte (PE32+) entry through the
address translator; a zero entry is the sentinel terminator; any other magic
fails with the magic error.  The Go loop has no static bound, so it is
fuelled; `outOfFuel` never occurs for the fuel passed by `parse`. -/
def parseINTsFrom (content : List Nat) (sectHdrs : List SectionHeader)
    (magic imageBase : Nat) : Nat → Nat → Except PEError (List INTEntry)
  | 0, _ => .error .outOfFuel
  | fuel + 1, addr =>
    if magic = magic32 then
      match ReadData content sectHdrs imageBase addr 4 with
      | .error e => .error e
      | .ok buf =>
        let raw := le32 (buf.getD 0 0) (buf.getD 1 0) (buf.getD 2 0) (buf.getD 3 0)
        if raw = 0 then .ok []
        else
          match parseINTsFrom content sectHdrs magic imageBase fuel (addr + 4) with
          | .ok ints => .ok (goINTEntry32 raw :: ints)
          | .error e => .error e
    else if magic = magic64 then
      match ReadData content sectHdrs imageBase addr 8 with
      | .error e => .error e
      | .ok buf =>
        let raw := le64 (buf.getD 0 0) (buf.getD 1 0) (buf.getD 2 0) (buf.getD 3 0)
          (buf.getD 4 0) (buf.getD 5 0) (buf.getD 6 0) (buf.getD 7 0)
        if raw = 0 then .ok []
        else
          match parseINTsFrom content sectHdrs magic imageBase fuel (addr + 8) with
          | .ok ints => .ok (goINTEntry64 raw :: ints)
          | .error e => .error e
    else .error (.magicError magic32 magic64 magic)

/-- `File.parseINTs` at relative address `intRelAddr`. -/
def parseINTs (content : List Nat) (sectHdrs : List SectionHeader)
    (optHdr : OptHeader) (fuel intRelAddr : Nat) : Except PEError (List INTEntry) :=
  parseINTsFrom content sectHdrs optHdr.Magic optHdr.ImageBase fuel
    (optHdr.ImageBase + intRelAddr)

/-- One imported module: its descriptor, the import name table (absent when
the descriptor's INT address is zero) and the import address table. -/
structure ImportEntry where
  ImpDir : ImportDirectory
  INTs : List INTEntry
  IATs : List INTEntry
  deriving DecidableEq

/-- `File.parseImportEntry`: parse the INT only when the descriptor's INT
address is non-zero; always parse the IAT. -/
def parseImportEntry (content : List Nat) (sectHdrs : List SectionHeader)
    (optHdr : OptHeader) (fuel : Nat) (impDir : ImportDirectory) : Except PEError ImportEntry :=
  match (if impDir.INTRelAddr ≠ 0
         then parseINTs content sectHdrs optHdr fuel impDir.INTRelAddr
         else .ok []) with
  | .error e => .error e
  | .ok ints =>
    match parseINTs content sectHdrs optHdr fuel impDir.IATRelAddr with
    | .error e => .error e
    | .ok iats => .ok { ImpDir := impDir, INTs := ints, IATs := iats }

/-- The loop of `File.parseImports` over the parsed descriptors. -/
def parseImportEntries (content : List Nat) (sectHdrs : List SectionHeader)
    (optHdr : OptHeader) (fuel : Nat) : List ImportDirectory → Except PEError (List ImportEntry)
  | [] => .ok []
  | impDir :: rest =>
    match parseImportEntry content sectHdrs optHdr fuel impDir with
    | .error e => .error e
    | .ok imp =>
      match parseImportEntries content sectHdrs optHdr fuel rest with
      | .ok imps => .ok (imp :: imps)
      | .error e => .error e

/-- `File.parseImports`. -/
def parseImports (content : List Nat) (sectHdrs : List SectionHeader)
    (optHdr : OptHeader) (fuel : Nat) (dataDir : DataDirectory) : Except PEError (List ImportEntry) :=
  match parseImportDirs content sectHdrs optHdr dataDir with
  | .error e => .error e
  | .ok impDirs => parseImportEntries content sectHdrs optHdr fuel impDirs

/-- Modelled from the spec: a 16-bit base-relocation entry packs a 12-bit
in-page offset (low bits) and a 4-bit type code (high bits); the entry type
and `goBaseRelocEntry` are not among the source files.  `RelocType` is the Go
field `Type`. -/
structure BaseRelocEntry where
  RelocType : Nat
  Offset : Nat
  deriving DecidableEq

/-- Modelled from the spec: unpack a raw 16-bit relocation entry. -/
def goBaseRelocEntry (raw : Nat) : BaseRelocEntry :=
  { RelocType := raw / 4096, Offset := raw % 4096 }

/-- A base-relocation block: page RVA, declared byte size (header included),
and the decoded entries. -/
structure BaseRelocBlock where
  PageRelAddr : Nat
  BlockSize : Nat
  Entries : List BaseRelocEntry
  deriving DecidableEq

/-- The entry loop of `File.parseBaseRelocBlock`, reading 16-bit entries
through an `io.LimitedReader` with signed byte budget `limit`
(`int64(BlockSize) - 8`).  A non-positive budget or an exhausted underlying
reader yields `io.EOF` (loop break); a budget of 1, or a single remaining
byte, is a partial read and fails.  Returns the entries and the bytes left in
the underlying reader. -/
def parseBaseRelocEntriesLoop : Int → List Nat → Except PEError (List BaseRelocEntry × List Nat)
  | _, [] => .ok ([], [])
  | limit, [b] => if limit ≤ 0 then .ok ([], [b]) else .error .truncationError
  | limit, b0 :: b1 :: rest =>
    if limit ≤ 0 then .ok ([], b0 :: b1 :: rest)
    else if limit = 1 then .error .truncationError
    else
      match parseBaseRelocEntriesLoop (limit - 2) rest with
      | .ok (es, r) => .ok (goBaseRelocEntry (le16 b0 b1) :: es, r)
      | .error e => .error e

/-- `File.parseBaseRelocBlock`: read the 8-byte header (page RVA, block
size), then decode the remaining `BlockSize - 8` bytes as 16-bit entries.
Empty input is `io.EOF` (intercepted by the block loop); a partial header
fails. -/
def parseBaseRelocBlock : List Nat → Except PEError (BaseRelocBlock × List Nat)
  | [] => .error .eofError
  | b0 :: b1 :: b2 :: b3 :: b4 :: b5 :: b6 :: b7 :: rest =>
    let pageRelAddr := le32 b0 b1 b2 b3
    let blockSize := le32 b4 b5 b6 b7
    match parseBaseRelocEntriesLoop ((blockSize : Int) - 8) rest with
    | .ok (entries, r) =>
      .ok ({ PageRelAddr := pageRelAddr, BlockSize := blockSize, Entries := entries }, r)
    | .error e => .error e
  | _ => .error .truncationError

/-- The block loop of `File.parseBaseRelocBlocks`: parse blocks until the
buffer is exhausted (`io.EOF` from the header read).  Each iteration consumes
at least the 8-byte header, so fuel `buf.length + 1` always suffices. -/
def parseBaseRelocBlocksLoop : Nat → List Nat → Except PEError (List BaseRelocBlock)
  | 0, _ => .error .outOfFuel
  | fuel + 1, bs =>
    match parseBaseRelocBlock bs with
    | .error .eofError => .ok []
    | .error e => .error e
    | .ok (block, rest) =>
      match parseBaseRelocBlocksLoop fuel rest with
      | .ok blocks => .ok (block :: blocks)
      | .error e => .error e

/-- `File.parseBaseRelocBlocks`: fetch the directory's byte range through the
address translator, then read blocks until the range is exhausted. -/
def parseBaseRelocBlocks (content : List Nat) (sectHdrs : List SectionHeader)
    (optHdr : OptHeader) (dataDir : DataDirectory) : Except PEError (List BaseRelocBlock) :=
  match ReadData content sectHdrs optHdr.ImageBase (optHdr.ImageBase + dataDir.RelAddr) dataDir.Size with
  | .error e => .error e
  | .ok buf => parseBaseRelocBlocksLoop (buf.length + 1) buf

/-- Debug data directory, decoded (`DebugDirectory`); timestamp kept as raw
epoch seconds (see `FileHeader`).  `Typ` is the Go field `Type`. -/
structure DebugDirectory where
  Characteristics : Nat
  Date : Nat
  MajorVer : Nat
  MinorVer : Nat
  Typ : Nat
  Size : Nat
  RelAddr : Nat
  Offset : Nat
  deriving DecidableEq

/-- Modelled from the spec: debug type tags used by the dispatcher (standard
PE values; the `enum` package's definitions are not among the source files). -/
def DebugTypeCodeView : Nat := 2

/-- Modelled from the spec: FPO debug type tag. -/
def DebugTypeFPO : Nat := 3

/-- Modelled from the spec: miscellaneous debug type tag. -/
def DebugTypeMisc : Nat := 4

/-- The loop of `File.parseDebugDirs`: `binary.Read` of 28-byte
`pe.RawDebugDirectory` records until the byte range is exhausted (no
sentinel); a partial record fails.  The raw/decoded conversion
(`goDebugDirectory`) is a field copy and is inlined here. -/
def parseDebugDirsLoop : List Nat → Except PEError (List DebugDirectory)
  | [] => .ok []
  | b0 :: b1 :: b2 :: b3 :: b4 :: b5 :: b6 :: b7 :: b8 :: b9 :: b10 :: b11 :: b12 :: b13 ::
    b14 :: b15 :: b16 :: b17 :: b18 :: b19 :: b20 :: b21 :: b22 :: b23 :: b24 :: b25 :: b26 :: b27 :: rest =>
    let d : DebugDirectory :=
      { Characteristics := le32 b0 b1 b2 b3
      , Date := le32 b4 b5 b6 b7
      , MajorVer := le16 b8 b9
      , MinorVer := le16 b10 b11
      , Typ := le32 b12 b13 b14 b15
      , Size := le32 b16 b17 b18 b19
      , RelAddr := le32 b20 b21 b22 b23
      , Offset := le32 b24 b25 b26 b27 }
    match parseDebugDirsLoop rest with
    | .ok ds => .ok (d :: ds)
    | .error e => .error e
  | _ => .error .truncationError

/-- `File.readDebugData`: when the descriptor's RVA is non-zero the payload
is fetched through the address translator; when it is zero the payload is
read directly at the absolute file offset,
`Content[Offset .. Offset + Size)`.  An out-of-range direct slice is a Go
panic, modelled as a truncation error. -/
def readDebugData (content : List Nat) (sectHdrs : List SectionHeader)
    (imageBase : Nat) (dbgDir : DebugDirectory) : Except PEError (List Nat) :=
  if dbgDir.RelAddr ≠ 0 then
    ReadData content sectHdrs imageBase (imageBase + dbgDir.RelAddr) dbgDir.Size
  else if dbgDir.Offset + dbgDir.Size ≤ content.length then
    .ok ((content.drop dbgDir.Offset).take dbgDir.Size)
  else .error .truncationError

/-- CodeView debug information, decoded; `PDBPath` holds the bytes of the
NUL-terminated path. -/
structure CodeViewInfo where
  Signature : Nat
  Offset : Nat
  Date : Nat
  Age : Nat
  PDBPath : List Nat
  deriving DecidableEq

/-- FPO record, decoded (`FPOData`). -/
structure FPOData where
  StartOffset : Nat
  FuncSize : Nat
  NLocals : Nat
  Params : Nat
  Prolog : Nat
  Regs : Nat
  HasSEH : Bool
  UseBP : Bool
  Reserved : Nat
  Frame : Nat
  deriving DecidableEq

/-- FPO record in raw format (`pe.RawFPOData`, 16 bytes). -/
structure RawFPOData where
  StartOffset : Nat
  FuncSize : Nat
  NLocals : Nat
  Params : Nat
  Prolog : Nat
  Bitfield : Nat
  deriving DecidableEq

/-- `RawFPOData.FPOData` of raw.go: locals and parameter sizes are stored
pre-divided by 4 on disk; the packed byte decomposes via the masks
0x07 / 0x08 / 0x10 / 0x20 >> 5 / 0xC0 >> 6. -/
def goFPOData (raw : RawFPOData) : FPOData :=
  { StartOffset := raw.StartOffset
  , FuncSize := raw.FuncSize
  , NLocals := raw.NLocals * 4
  , Params := raw.Params * 4
  , Prolog := raw.Prolog
  , Regs := raw.Bitfield &&& 0x07
  , HasSEH := (raw.Bitfield &&& 0x08) != 0
  , UseBP := (raw.Bitfield &&& 0x10) != 0
  , Reserved := (raw.Bitfield &&& 0x20) >>> 5
  , Frame := (raw.Bitfield &&& 0xC0) >>> 6 }

/-- Debug data, polymorphic over the decoded variants (`DebugCodeView`,
`DebugFPO`, `DebugMisc`). -/
inductive DebugData where
  | codeView (DbgDir : DebugDirectory) (Info : CodeViewInfo)
  | fpo (DbgDir : DebugDirectory) (Data : List FPOData)
  | misc (DbgDir : DebugDirectory) (Content : List Nat)
  deriving DecidableEq

/-- `parseDebugCodeViewInfo`: `binary.Read` of the fixed 16-byte
`pe.RawCodeViewInfo`, then the remainder of the payload as the NUL-terminated
PDB path. -/
def parseDebugCodeViewInfo (dbgDir : DebugDirectory) : List Nat → Except PEError DebugData
  | b0 :: b1 :: b2 :: b3 :: b4 :: b5 :: b6 :: b7 :: b8 :: b9 :: b10 :: b11 :: b12 :: b13 :: b14 :: b15 :: rest =>
    .ok (.codeView dbgDir
      { Signature := le32 b0 b1 b2 b3
      , Offset := le32 b4 b5 b6 b7
      , Date := le32 b8 b9 b10 b11
      , Age := le32 b12 b13 b14 b15
      , PDBPath := parseCString rest })
  | _ => .error .truncationError

/-- The record loop of `parseDebugFPO`: 16-byte `pe.RawFPOData` records until
payload exhaustion; a partial record fails. -/
def parseFPOLoop : List Nat → Except PEError (List FPOData)
  | [] => .ok []
  | b0 :: b1 :: b2 :: b3 :: b4 :: b5 :: b6 :: b7 :: b8 :: b9 :: b10 :: b11 :: b12 :: b13 :: b14 :: b15 :: rest =>
    match parseFPOLoop rest with
    | .ok fs =>
      .ok (goFPOData
        { StartOffset := le32 b0 b1 b2 b3
        , FuncSize := le32 b4 b5 b6 b7
        , NLocals := le32 b8 b9 b10 b11
        , Params := le16 b12 b13
        , Prolog := b14
        , Bitfield := b15 } :: fs)
    | .error e => .error e
  | _ => .error .truncationError

/-- `parseDebugFPO`. -/
def parseDebugFPO (dbgDir : DebugDirectory) (buf : List Nat) : Except PEError DebugData :=
  match parseFPOLoop buf with
  | .ok fs => .ok (.fpo dbgDir fs)
  | .error e => .error e

/-- The per-descriptor loop of `File.parseDebugData`: locate the payload via
`readDebugData`, then dispatch on the descriptor's type tag (CodeView, FPO,
Misc); any other tag is a panic in the source, modelled as an error. -/
def parseDebugDataLoop (content : List Nat) (sectHdrs : List SectionHeader)
    (imageBase : Nat) : List DebugDirectory → Except PEError (List DebugData)
  | [] => .ok []
  | dbgDir :: rest =>
    match readDebugData content sectHdrs imageBase dbgDir with
    | .error e => .error e
    | .ok buf =>
      match (if dbgDir.Typ = DebugTypeCodeView then parseDebugCodeViewInfo dbgDir buf
             else if dbgDir.Typ = DebugTypeFPO then parseDebugFPO dbgDir buf
             else if dbgDir.Typ = DebugTypeMisc then .ok (.misc dbgDir buf)
             else .error (.unsupportedDebugType dbgDir.Typ)) with
      | .error e => .error e
      | .ok dd =>
        match parseDebugDataLoop content sectHdrs imageBase rest with
        | .ok ds => .ok (dd :: ds)
        | .error e => .error e

/-- `File.parseDebugData`: fetch the directory's byte range, read the
descriptor array, then decode each descriptor's payload. -/
def parseDebugData (content : List Nat) (sectHdrs : List SectionHeader)
    (optHdr : OptHeader) (dataDir : DataDirectory) : Except PEError (List DebugData) :=
  match ReadData content sectHdrs optHdr.ImageBase (optHdr.ImageBase + dataDir.RelAddr) dataDir.Size with
  | .error e => .error e
  | .ok buf =>
    match parseDebugDirsLoop buf with
    | .error e => .error e
    | .ok dbgDirs => parseDebugDataLoop content sectHdrs optHdr.ImageBase dbgDirs

/-- The decoded contents of the supported data directories, accumulated by
the dispatcher (the Go code mutates the corresponding `File` fields). -/
structure DirContents where
  Imps : List ImportEntry := []
  BaseRelocBlocks : List BaseRelocBlock := []
  DbgData : List DebugData := []
  deriving DecidableEq

/-- One iteration of `File.parseDataDirsContent`: a zero entry (both fields
zero) is skipped; indices 1, 5 and 6 decode; 2 is a recognized no-op
(resource table deferred); 12 is a defined no-op (handled with the import
table); every other index in 0..15 is a panic in the source
("support for data directory index %d not yet implemented"), modelled as
`unsupportedDirectory`; an index ≥ 16 is the "invalid data directory index"
panic. -/
def dispatchDataDir (content : List Nat) (sectHdrs : List SectionHeader)
    (optHdr : OptHeader) (fuel : Nat) (idx : Nat) (dataDir : DataDirectory)
    (acc : DirContents) : Except PEError DirContents :=
  if dataDir = { RelAddr := 0, Size := 0 } then .ok acc
  else
    match idx with
    | 0 => .error (.unsupportedDirectory 0)
    | 1 =>
      match parseImports content sectHdrs optHdr fuel dataDir with
      | .ok imps => .ok { acc with Imps := imps }
      | .error e => .error e
    | 2 => .ok acc
    | 3 => .error (.unsupportedDirectory 3)
    | 4 => .error (.unsupportedDirectory 4)
    | 5 =>
      match parseBaseRelocBlocks content sectHdrs optHdr dataDir with
      | .ok blocks => .ok { acc with BaseRelocBlocks := blocks }
      | .error e => .error e
    | 6 =>
      match parseDebugData content sectHdrs optHdr dataDir with
      | .ok ds => .ok { acc with DbgData := ds }
      | .error e => .error e
    | 7 => .error (.unsupportedDirectory 7)
    | 8 => .error (.unsupportedDirectory 8)
    | 9 => .error (.unsupportedDirectory 9)
    | 10 => .error (.unsupportedDirectory 10)
    | 11 => .error (.unsupportedDirectory 11)
    | 12 => .ok acc
    | 13 => .error (.unsupportedDirectory 13)
    | 14 => .error (.unsupportedDirectory 14)
    | 15 => .error (.unsupportedDirectory 15)
    | i => .error (.invalidDirectoryIndex i)

/-- `File.parseDataDirsContent`: iterate the directory table with its index,
dispatching each entry. -/
def parseDataDirsContentLoop (content : List Nat) (sectHdrs : List SectionHeader)
    (optHdr : OptHeader) (fuel : Nat) : Nat → List DataDirectory → DirContents → Except PEError DirContents
  | _, [], acc => .ok acc
  | idx, dataDir :: rest, acc =>
    match dispatchDataDir content sectHdrs optHdr fuel idx dataDir acc with
    | .error e => .error e
    | .ok acc2 => parseDataDirsContentLoop content sectHdrs optHdr fuel (idx + 1) rest acc2

/-- The parsed PE file (`File`). -/
structure File where
  Content : List Nat
  FileHdr : FileHeader
  OptHdr : OptHeader
  DataDirs : List DataDirectory
  SectHdrs : List SectionHeader
  Imps : List ImportEntry
  BaseRelocBlocks : List BaseRelocBlock
  DbgData : List DebugData
  deriving DecidableEq

/-- `parse`: COFF file header, optional header, data directories, section
headers, then the contents of the data directories.  The import-name-table
fuel exceeds any possible number of loop iterations for byte-valued content
(each iteration resolves a strictly larger 32-bit RVA to in-content data). -/
def parse (content : List Nat) : Except PEError File :=
  match parseFileHeader content with
  | .error e => .error e
  | .ok (fileHdr, p1) =>
    match parseOptHeader content p1 with
    | .error e => .error e
    | .ok (optHdr, p2) =>
      match parseDataDirsLoop content p2 optHdr.NDataDirs with
      | .error e => .error e
      | .ok (dataDirs, p3) =>
        match parseSectionHdrsLoop content p3 fileHdr.NSections with
        | .error e => .error e
        | .ok (sectHdrs, _) =>
          match parseDataDirsContentLoop content sectHdrs optHdr
              (content.length + 4294967296) 0 dataDirs {} with
          | .error e => .error e
          | .ok dc =>
            .ok { Content := content
                , FileHdr := fileHdr
                , OptHdr := optHdr
                , DataDirs := dataDirs
                , SectHdrs := sectHdrs
                , Imps := dc.Imps
                , BaseRelocBlocks := dc.BaseRelocBlocks
                , DbgData := dc.DbgData }

/-! Statement-level helpers: encodings inverse to the byte layout, used to
state theorems about the loops, and concrete inputs used by witnesses. -/

/-- All five fields of an import descriptor fit in 32 bits (they are `uint32`
in the source; arbitrary naturals only arise in the embedding). -/
def validRID (d : RawImportDirectory) : Prop :=
  d.INTRelAddr < 4294967296 ∧ d.Date < 4294967296 ∧ d.ForwarderChain < 4294967296 ∧
    d.NameRelAddr < 4294967296 ∧ d.IATRelAddr < 4294967296

instance (d : RawImportDirectory) : Decidable (validRID d) := by
  unfold validRID; infer_instance

/-- The 20-byte little-endian layout of an import descriptor. -/
def encodeRawImportDirectory (d : RawImportDirectory) : List Nat :=
  enc32 d.INTRelAddr ++ enc32 d.Date ++ enc32 d.ForwarderChain ++
    enc32 d.NameRelAddr ++ enc32 d.IATRelAddr

/-- The packed 16-bit entry sequence of a base-relocation payload (§4.5):
consecutive byte pairs, little-endian, each unpacked by `goBaseRelocEntry`. -/
def decodePairs : List Nat → List BaseRelocEntry
  | b0 :: b1 :: rest => goBaseRelocEntry (le16 b0 b1) :: decodePairs rest
  | _ => []

/-- Default section header used for positional indexing in statements. -/
def emptySectionHeader : SectionHeader :=
  { Name := [], VirtualSize := 0, RelAddr := 0, DataSize := 0, DataOffset := 0
  , RelocsOffset := 0, LineNumsOffset := 0, NRelocs := 0, NLineNums := 0, Flags := 0 }

/-- Witness section: 16 virtual bytes at RVA 4096, 16 on-disk bytes at file
offset 4. -/
def wSect : SectionHeader :=
  { Name := [], VirtualSize := 16, RelAddr := 4096, DataSize := 16, DataOffset := 4
  , RelocsOffset := 0, LineNumsOffset := 0, NRelocs := 0, NLineNums := 0, Flags := 0 }

/-- Witness raw FPO record with bitfield `0b11010011`. -/
def wFPORaw : RawFPOData :=
  { StartOffset := 1, FuncSize := 2, NLocals := 3, Params := 4, Prolog := 5
  , Bitfield := 0b11010011 }

/-- Witness debug descriptor with a zero RVA (direct file-offset
addressing). -/
def wDbgDir : DebugDirectory :=
  { Characteristics := 0, Date := 0, MajorVer := 0, MinorVer := 0, Typ := 4
  , Size := 2, RelAddr := 0, Offset := 1 }

/-- Witness image content: PE-header pointer 64 at offset 0x3C, signature,
a COFF header declaring one section, a PE32 magic, an all-zero 32-bit
optional header body (no data directories), and one all-zero section
header. -/
def wContent : List Nat :=
  List.replicate 60 0 ++ [64, 0, 0, 0] ++ [80, 69, 0, 0] ++
    ([0, 0, 1, 0] ++ List.replicate 16 0) ++
    [11, 1] ++ List.replicate 94 0 ++
    List.replicate 40 0

/-- The file header parsed from `wContent`. -/
def wFileHdr : FileHeader :=
  { Machine := 0, NSections := 1, Date := 0, SymbolTableOffset := 0
  , NSymbols := 0, OptHdrSize := 0, Characteristics := 0 }

/-- The optional header parsed from `wContent`. -/
def wOptHdr : OptHeader :=
  { Magic := 267, MajorLinkerVer := 0, MinorLinkerVer := 0, CodeSize := 0
  , InitializedDataSize := 0, UninitializedDataSize := 0, EntryRelAddr := 0
  , CodeBase := 0, DataBase := 0, ImageBase := 0, SectionAlign := 0
  , FileAlign := 0, MajorOSVer := 0, MinorOSVer := 0, MajorImageVer := 0
  , MinorImageVer := 0, MajorSubsystemVer := 0, MinorSubsystemVer := 0
  , Win32Ver := 0, ImageSize := 0, HeadersSize := 0, Checksum := 0
  , Subsystem := 0, DLLCharacteristics := 0, ReservedStackSize := 0
  , InitialStackSize := 0, ReservedHeapSize := 0, InitialHeapSize := 0
  , LoaderFlags := 0, NDataDirs := 0 }

/-- The image parsed from `wContent`. -/
def wFile : File :=
  { Content := wContent
  , FileHdr := wFileHdr
  , OptHdr := wOptHdr
  , DataDirs := []
  , SectHdrs := [emptySectionHeader]
  , Imps := []
  , BaseRelocBlocks := []
  , DbgData := [] }

/-! Helper lemmas. -/

theorem le32_enc32 (n : Nat) (h : n < 4294967296) :
    le32 (n % 256) (n / 256 % 256) (n / 65536 % 256) (n / 16777216 % 256) = n := by
  unfold le32
  omega

theorem sectionContainsB_eq_true {rva : Nat} {s : SectionHeader} :
    sectionContainsB rva s = true ↔ sectionContains s rva := by
  simp [sectionContainsB, sectionContains]

theorem find?_eq_some_of_unique {α : Type} {p : α → Bool} {l : List α} {a : α}
    (ha : a ∈ l) (hpa : p a = true) (huniq : ∀ b ∈ l, p b = true → b = a) :
    l.find? p = some a := by
  induction l with
  | nil => cases ha
  | cons x xs ih =>
    by_cases hx : p x = true
    · have hxa : x = a := huniq x (List.mem_cons_self x xs) hx
      subst hxa
      exact List.find?_cons_of_pos _ hx
    · have hax : a ∈ xs := by
        rcases List.mem_cons.mp ha with h | h
        · exact absurd (h ▸ hpa) hx
        · exact h
      rw [List.find?_cons_of_neg _ (by simpa using hx)]
      exact ih hax (fun b hb hpb => huniq b (List.mem_cons_of_mem _ hb) hpb)

/-! Claim theorems. -/

/-- C1: for an RVA `rva` contained in the virtual range of exactly one
section `s` of the section table, `resolve rva len` returns
`content[s.DataOffset + (rva - s.RelAddr) .. + len)`; if no section contains
`rva` it fails with an address-resolution error; and if the requested range
exceeds the section's on-disk extent or the available content it fails with
a truncation error rather than silently clamping. -/
theorem resolve_spec (content : List Nat) (sections : List SectionHeader) (rva len : Nat) :
    (∀ s ∈ sections, sectionContains s rva →
      (∀ t ∈ sections, sectionContains t rva → t = s) →
      rva - s.RelAddr + len ≤ s.DataSize →
      s.DataOffset + (rva - s.RelAddr) + len ≤ content.length →
      resolve content sections rva len =
        .ok ((content.drop (s.DataOffset + (rva - s.RelAddr))).take len)) ∧
    ((∀ s ∈ sections, ¬ sectionContains s rva) →
      resolve content sections rva len = .error .addressResolutionError) ∧
    (∀ s ∈ sections, sectionContains s rva →
      (∀ t ∈ sections, sectionContains t rva → t = s) →
      ¬ (rva - s.RelAddr + len ≤ s.DataSize ∧
         s.DataOffset + (rva - s.RelAddr) + len ≤ content.length) →
      resolve content sections rva len = .error .truncationError) := by
  refine ⟨?_, ?_, ?_⟩
  · intro s hs hcont huniq hdisk hcontent
    have hfind : sections.find? (sectionContainsB rva) = some s :=
      find?_eq_some_of_unique hs (sectionContainsB_eq_true.mpr hcont)
        (fun t ht hpt => huniq t ht (sectionContainsB_eq_true.mp hpt))
    unfold resolve
    rw [hfind]
    exact if_pos ⟨hdisk, hcontent⟩
  · intro hnone
    have hfind : sections.find? (sectionContainsB rva) = none := by
      rw [List.find?_eq_none]
      intro t ht
      simpa [sectionContainsB_eq_true] using hnone t ht
    unfold resolve
    rw [hfind]
  · intro s hs hcont huniq hbad
    have hfind : sections.find? (sectionContainsB rva) = some s :=
      find?_eq_some_of_unique hs (sectionContainsB_eq_true.mpr hcont)
        (fun t ht hpt => huniq t ht (sectionContainsB_eq_true.mp hpt))
    unfold resolve
    rw [hfind]
    exact if_neg hbad

/-- Witness for C1: RVA 4098 lies only in `wSect`; the translator returns the
two content bytes at file offset 4 + 2. -/
theorem resolve_spec_witness :
    resolve [0, 1, 2, 3, 4, 5, 6, 7, 8, 9] [wSect] 4098 2 = .ok [6, 7] :=
  (resolve_spec [0, 1, 2, 3, 4, 5, 6, 7, 8, 9] [wSect] 4098 2).1 wSect
    (by decide) (by decide) (by decide) (by decide) (by decide)

/-- C2: for every data-directory entry whose index has no specialized decoder
(0, 3, 4, 7, 8, 9, 10, 11, 13, 14, 15), the dispatcher fails with an
unsupported-directory error identifying that index exactly when the entry is
populated; and an entry with both fields zero, at any index, is skipped,
producing no error and no record. -/
theorem dispatch_unsupported (content : List Nat) (sectHdrs : List SectionHeader)
    (optHdr : OptHeader) (fuel idx : Nat) (dataDir : DataDirectory) (acc : DirContents)
    (hidx : idx = 0 ∨ idx = 3 ∨ idx = 4 ∨ idx = 7 ∨ idx = 8 ∨ idx = 9 ∨
      idx = 10 ∨ idx = 11 ∨ idx = 13 ∨ idx = 14 ∨ idx = 15) :
    (dataDir ≠ { RelAddr := 0, Size := 0 } →
      dispatchDataDir content sectHdrs optHdr fuel idx dataDir acc =
        .error (.unsupportedDirectory idx)) ∧
    (∀ j : Nat,
      dispatchDataDir content sectHdrs optHdr fuel j { RelAddr := 0, Size := 0 } acc =
        .ok acc) := by
  constructor
  · intro hne
    rcases hidx with rfl | rfl | rfl | rfl | rfl | rfl | rfl | rfl | rfl | rfl | rfl <;>
      simp [dispatchDataDir, hne]
  · intro j
    simp [dispatchDataDir]

/-- Witness for C2: a populated entry at index 0 (export table) fails with
the unsupported-directory error; the zero entry at index 0 is skipped. -/
theorem dispatch_unsupported_witness :
    dispatchDataDir [] [] wOptHdr 0 0 { RelAddr := 1, Size := 1 } {} =
      .error (.unsupportedDirectory 0) ∧
    dispatchDataDir [] [] wOptHdr 0 0 { RelAddr := 0, Size := 0 } {} = .ok {} :=
  ⟨(dispatch_unsupported [] [] wOptHdr 0 0 { RelAddr := 1, Size := 1 } {}
      (Or.inl rfl)).1 (by decide),
   (dispatch_unsupported [] [] wOptHdr 0 0 { RelAddr := 1, Size := 1 } {}
      (Or.inl rfl)).2 0⟩

/-- C6: reading the optional header reads a 2-byte magic; 0x010B selects and
decodes the 32-bit layout, 0x020B selects and decodes the 64-bit layout, and
any other value fails with a format error carrying both accepted magics
0x010B and 0x020B and the value found. -/
theorem parseOptHeader_magic_dispatch (c : List Nat) (p magic q : Nat)
    (h : rdU16 c p = some (magic, q)) :
    (magic = 0x010B → ∀ raw r, rdRawOptHeader32 c q = some (raw, r) →
      parseOptHeader c p = .ok (goOptHeader32 raw magic, r)) ∧
    (magic = 0x020B → ∀ raw r, rdRawOptHeader64 c q = some (raw, r) →
      parseOptHeader c p = .ok (goOptHeader64 raw magic, r)) ∧
    (magic ≠ 0x010B → magic ≠ 0x020B →
      parseOptHeader c p = .error (.magicError 0x010B 0x020B magic)) := by
  refine ⟨?_, ?_, ?_⟩
  · intro hm raw r hraw
    subst hm
    unfold parseOptHeader
    rw [h]
    simp [magic32, hraw]
  · intro hm raw r hraw
    subst hm
    unfold parseOptHeader
    rw [h]
    simp [magic32, magic64, hraw]
  · intro h1 h2
    unfold parseOptHeader
    rw [h]
    simp [magic32, magic64, h1, h2]

/-- Witness for C6: magic 0x0000 fails with the format error naming 0x010B
and 0x020B. -/
theorem parseOptHeader_magic_dispatch_witness :
    parseOptHeader [0, 0] 0 = .error (.magicError 0x010B 0x020B 0) :=
  (parseOptHeader_magic_dispatch [0, 0] 0 0 2 rfl).2.2 (by decide) (by decide)

/-- C7: a debug payload is located via RVA-based address translation exactly
when the descriptor's RVA is non-zero; when the RVA is zero the payload is
read directly at the absolute file offset,
`Content[Offset .. Offset + Size)`. -/
theorem readDebugData_modes (content : List Nat) (sectHdrs : List SectionHeader)
    (imageBase : Nat) (dbgDir : DebugDirectory) :
    (dbgDir.RelAddr ≠ 0 →
      readDebugData content sectHdrs imageBase dbgDir =
        ReadData content sectHdrs imageBase (imageBase + dbgDir.RelAddr) dbgDir.Size) ∧
    (dbgDir.RelAddr = 0 → dbgDir.Offset + dbgDir.Size ≤ content.length →
      readDebugData content sectHdrs imageBase dbgDir =
        .ok ((content.drop dbgDir.Offset).take dbgDir.Size)) := by
  constructor
  · intro hne
    simp [readDebugData, hne]
  · intro hz hlen
    simp [readDebugData, hz, hlen]

/-- Witness for C7: `wDbgDir` has RVA 0, so its 2-byte payload is read
directly at file offset 1. -/
theorem readDebugData_modes_witness :
    readDebugData [5, 6, 7, 8] [] 0 wDbgDir = .ok [6, 7] :=
  (readDebugData_modes [5, 6, 7, 8] [] 0 wDbgDir).2 (by decide) (by decide)

set_option maxRecDepth 8192 in
/-- C5 (amended): the decoded FPO record multiplies the on-disk `NLocals` and
`Params` by 4, and the packed byte decomposes as register-save count in bits
0-2, SEH flag in bit 3, frame-pointer flag in bit 4, reserved in bit 5 and
frame type in bits 6-7; the bitfield byte 0b11010011 decodes to Regs = 3,
HasSEH = false, UseBP = true, Reserved = 0 and Frame = 3 (the source yields
Reserved = 0 here, not 1: bit 5 of 0b11010011 is clear). -/
theorem goFPOData_decomposition (raw : RawFPOData) (h : raw.Bitfield < 256) :
    (goFPOData raw).NLocals = raw.NLocals * 4 ∧
    (goFPOData raw).Params = raw.Params * 4 ∧
    (goFPOData raw).Regs = raw.Bitfield % 8 ∧
    ((goFPOData raw).HasSEH = true ↔ raw.Bitfield / 8 % 2 = 1) ∧
    ((goFPOData raw).UseBP = true ↔ raw.Bitfield / 16 % 2 = 1) ∧
    (goFPOData raw).Reserved = raw.Bitfield / 32 % 2 ∧
    (goFPOData raw).Frame = raw.Bitfield / 64 % 4 ∧
    (goFPOData { StartOffset := 0, FuncSize := 0, NLocals := 0, Params := 0,
                 Prolog := 0, Bitfield := 0b11010011 }).Regs = 3 ∧
    (goFPOData { StartOffset := 0, FuncSize := 0, NLocals := 0, Params := 0,
                 Prolog := 0, Bitfield := 0b11010011 }).HasSEH = false ∧
    (goFPOData { StartOffset := 0, FuncSize := 0, NLocals := 0, Params := 0,
                 Prolog := 0, Bitfield := 0b11010011 }).UseBP = true ∧
    (goFPOData { StartOffset := 0, FuncSize := 0, NLocals := 0, Params := 0,
                 Prolog := 0, Bitfield := 0b11010011 }).Reserved = 0 ∧
    (goFPOData { StartOffset := 0, FuncSize := 0, NLocals := 0, Params := 0,
                 Prolog := 0, Bitfield := 0b11010011 }).Frame = 3 := by
  obtain ⟨so, fz, nl, ps, pl, b⟩ := raw
  have hb : b < 256 := h
  clear h
  refine ⟨rfl, rfl, ?_, ?_, ?_, ?_, ?_,
    by decide, by decide, by decide, by decide, by decide⟩
  · show b &&& 0x07 = b % 8
    revert b
    decide
  · show ((b &&& 0x08) != 0) = true ↔ b / 8 % 2 = 1
    revert b
    decide
  · show ((b &&& 0x10) != 0) = true ↔ b / 16 % 2 = 1
    revert b
    decide
  · show (b &&& 0x20) >>> 5 = b / 32 % 2
    revert b
    decide
  · show (b &&& 0xC0) >>> 6 = b / 64 % 4
    revert b
    decide

/-- Counterexample for C5: the claim asserts Reserved = 1 for bitfield
0b11010011; the code decodes Reserved = 0 (bit 5 of 0b11010011 is clear). -/
theorem goFPOData_reserved_cex :
    (goFPOData { StartOffset := 0, FuncSize := 0, NLocals := 0, Params := 0,
                 Prolog := 0, Bitfield := 0b11010011 }).Reserved = 0 ∧
    ¬ (goFPOData { StartOffset := 0, FuncSize := 0, NLocals := 0, Params := 0,
                   Prolog := 0, Bitfield := 0b11010011 }).Reserved = 1 := by
  decide

/-- Witness for C5: the decomposition at the concrete record `wFPORaw`
(bitfield 0b11010011). -/
theorem goFPOData_decomposition_witness :
    (goFPOData wFPORaw).NLocals = wFPORaw.NLocals * 4 ∧
    (goFPOData wFPORaw).Params = wFPORaw.Params * 4 ∧
    (goFPOData wFPORaw).Regs = wFPORaw.Bitfield % 8 ∧
    ((goFPOData wFPORaw).HasSEH = true ↔ wFPORaw.Bitfield / 8 % 2 = 1) ∧
    ((goFPOData wFPORaw).UseBP = true ↔ wFPORaw.Bitfield / 16 % 2 = 1) ∧
    (goFPOData wFPORaw).Reserved = wFPORaw.Bitfield / 32 % 2 ∧
    (goFPOData wFPORaw).Frame = wFPORaw.Bitfield / 64 % 4 ∧
    (goFPOData { StartOffset := 0, FuncSize := 0, NLocals := 0, Params := 0,
                 Prolog := 0, Bitfield := 0b11010011 }).Regs = 3 ∧
    (goFPOData { StartOffset := 0, FuncSize := 0, NLocals := 0, Params := 0,
                 Prolog := 0, Bitfield := 0b11010011 }).HasSEH = false ∧
    (goFPOData { StartOffset := 0, FuncSize := 0, NLocals := 0, Params := 0,
                 Prolog := 0, Bitfield := 0b11010011 }).UseBP = true ∧
    (goFPOData { StartOffset := 0, FuncSize := 0, NLocals := 0, Params := 0,
                 Prolog := 0, Bitfield := 0b11010011 }).Reserved = 0 ∧
    (goFPOData { StartOffset := 0, FuncSize := 0, NLocals := 0, Params := 0,
                 Prolog := 0, Bitfield := 0b11010011 }).Frame = 3 :=
  goFPOData_decomposition wFPORaw (by decide)

theorem parseImportDirsLoop_encode_cons (d : RawImportDirectory) (hv : validRID d)
    (hnz : d ≠ zeroRawImportDirectory) (tl : List Nat) :
    parseImportDirsLoop (encodeRawImportDirectory d ++ tl) =
      match parseImportDirsLoop tl with
      | .ok dirs => .ok (goImportDirectory d :: dirs)
      | .error e => .error e := by
  obtain ⟨a, b, c, n, i⟩ := d
  obtain ⟨ha, hb, hc, hn, hi⟩ := hv
  simp only [encodeRawImportDirectory, enc32, List.cons_append, List.nil_append]
  simp only [parseImportDirsLoop]
  rw [le32_enc32 a ha, le32_enc32 b hb, le32_enc32 c hc, le32_enc32 n hn, le32_enc32 i hi]
  rw [if_neg hnz]

theorem parseImportDirsLoop_encode_append (ds : List RawImportDirectory)
    (hv : ∀ d ∈ ds, validRID d) (hnz : ∀ d ∈ ds, d ≠ zeroRawImportDirectory)
    (tl : List Nat) :
    parseImportDirsLoop ((ds.map encodeRawImportDirectory).flatten ++ tl) =
      match parseImportDirsLoop tl with
      | .ok dirs => .ok (ds.map goImportDirectory ++ dirs)
      | .error e => .error e := by
  induction ds with
  | nil =>
    simp only [List.map_nil, List.flatten_nil, List.nil_append]
    cases h : parseImportDirsLoop tl <;> simp [h]
  | cons d ds ih =>
    simp only [List.map_cons, List.flatten_cons, List.append_assoc]
    rw [parseImportDirsLoop_encode_cons d (hv d (by simp)) (hnz d (by simp))]
    rw [ih (fun x hx => hv x (by simp [hx])) (fun x hx => hnz x (by simp [hx]))]
    cases h : parseImportDirsLoop tl <;> simp [h]

theorem parseImportDirsLoop_short (l : List Nat) (h0 : 0 < l.length)
    (h20 : l.length < 20) :
    parseImportDirsLoop l = .error .truncationError := by
  rw [parseImportDirsLoop.eq_def]
  split
  · simp at h0
  · exfalso
    simp [List.length_cons] at h20
    omega
  · rfl

theorem parseImportDirsLoop_zero_sentinel :
    parseImportDirsLoop (encodeRawImportDirectory zeroRawImportDirectory) = .ok [] := by
  decide

/-- C3: an import-table byte range holding K non-zero import-descriptor
records followed by one all-zero record parses to exactly K entries, in
descriptor order; the all-zero record terminates the traversal and produces
no entry. -/
theorem parseImportDirs_sentinel_count (ds : List RawImportDirectory)
    (hv : ∀ d ∈ ds, validRID d) (hnz : ∀ d ∈ ds, d ≠ zeroRawImportDirectory) :
    parseImportDirsLoop ((ds.map encodeRawImportDirectory).flatten ++
        encodeRawImportDirectory zeroRawImportDirectory) =
      .ok (ds.map goImportDirectory) ∧
    (ds.map goImportDirectory).length = ds.length := by
  constructor
  · rw [parseImportDirsLoop_encode_append ds hv hnz]
    rw [parseImportDirsLoop_zero_sentinel]
    simp
  · simp

/-- Witness for C3: one non-zero descriptor followed by the zero sentinel
parses to exactly that one entry. -/
theorem parseImportDirs_sentinel_count_witness :
    parseImportDirsLoop
        [1, 0, 0, 0, 0, 0, 0, 0, 0, 0, 0, 0, 0, 0, 0, 0, 2, 0, 0, 0,
         0, 0, 0, 0, 0, 0, 0, 0, 0, 0, 0, 0, 0, 0, 0, 0, 0, 0, 0, 0] =
      .ok [{ INTRelAddr := 1, Date := 0, ForwarderChain := 0, NameRelAddr := 0,
             IATRelAddr := 2 }] ∧
    ([{ INTRelAddr := 1, Date := 0, ForwarderChain := 0, NameRelAddr := 0,
        IATRelAddr := 2 }] : List ImportDirectory).length = 1 :=
  parseImportDirs_sentinel_count
    [{ INTRelAddr := 1, Date := 0, ForwarderChain := 0, NameRelAddr := 0, IATRelAddr := 2 }]
    (by decide) (by decide)

/-- C8 (amended): during import-table traversal, a read that encounters a
partial descriptor record fails with a truncation error, and a failing read
in the import name/address table loop fails the parse with that error
(truncation included); however the descriptor traversal terminates
successfully, with the entries read so far, when the content is exhausted
exactly at a record boundary (io.EOF), without requiring the all-zero
sentinel. -/
theorem importTraversal_truncation :
    (∀ (ds : List RawImportDirectory) (extra : List Nat),
      (∀ d ∈ ds, validRID d) → (∀ d ∈ ds, d ≠ zeroRawImportDirectory) →
      0 < extra.length → extra.length < 20 →
      parseImportDirsLoop ((ds.map encodeRawImportDirectory).flatten ++ extra) =
        .error .truncationError) ∧
    (∀ ds : List RawImportDirectory,
      (∀ d ∈ ds, validRID d) → (∀ d ∈ ds, d ≠ zeroRawImportDirectory) →
      parseImportDirsLoop (ds.map encodeRawImportDirectory).flatten =
        .ok (ds.map goImportDirectory)) ∧
    (∀ (content : List Nat) (sectHdrs : List SectionHeader)
        (imageBase fuel addr : Nat) (e : PEError),
      ReadData content sectHdrs imageBase addr 4 = .error e →
      parseINTsFrom content sectHdrs magic32 imageBase (fuel + 1) addr = .error e) ∧
    (∀ (content : List Nat) (sectHdrs : List SectionHeader)
        (imageBase fuel addr : Nat) (e : PEError),
      ReadData content sectHdrs imageBase addr 8 = .error e →
      parseINTsFrom content sectHdrs magic64 imageBase (fuel + 1) addr = .error e) := by
  refine ⟨?_, ?_, ?_, ?_⟩
  · intro ds extra hv hnz h0 h20
    rw [parseImportDirsLoop_encode_append ds hv hnz]
    rw [parseImportDirsLoop_short extra h0 h20]
  · intro ds hv hnz
    have h := parseImportDirsLoop_encode_append ds hv hnz []
    rw [List.append_nil] at h
    rw [h]
    simp [parseImportDirsLoop]
  · intro content sectHdrs imageBase fuel addr e h
    simp [parseINTsFrom, h]
  · intro content sectHdrs imageBase fuel addr e h
    simp [parseINTsFrom, magic32, magic64, h]

/-- Counterexample for C8: a byte range holding exactly one non-zero 20-byte
descriptor and no sentinel is exhausted at a record boundary; the traversal
ends at io.EOF and succeeds with one entry instead of failing with a
truncation error. -/
theorem importDirs_exhaustion_cex :
    parseImportDirsLoop
        [1, 0, 0, 0, 0, 0, 0, 0, 0, 0, 0, 0, 0, 0, 0, 0, 2, 0, 0, 0] =
      .ok [{ INTRelAddr := 1, Date := 0, ForwarderChain := 0, NameRelAddr := 0,
             IATRelAddr := 2 }] ∧
    parseImportDirsLoop
        [1, 0, 0, 0, 0, 0, 0, 0, 0, 0, 0, 0, 0, 0, 0, 0, 2, 0, 0, 0] ≠
      .error .truncationError := by
  decide

/-- Witness for C8: a one-byte (partial) record fails with a truncation
error. -/
theorem importTraversal_truncation_witness :
    parseImportDirsLoop [1] = .error .truncationError :=
  importTraversal_truncation.1 [] [1] (by decide) (by decide) (by decide) (by decide)

theorem decodePairs_length : ∀ l : List Nat, (decodePairs l).length = l.length / 2
  | [] => by simp [decodePairs]
  | [b] => by simp [decodePairs]
  | b0 :: b1 :: rest => by
    simp only [decodePairs, List.length_cons, decodePairs_length rest]
    omega

theorem parseBaseRelocEntriesLoop_exact :
    ∀ (m : Nat) (bytes : List Nat), 2 * m ≤ bytes.length →
      parseBaseRelocEntriesLoop ((2 * m : Nat) : Int) bytes =
        .ok (decodePairs (bytes.take (2 * m)), bytes.drop (2 * m))
  | 0, bytes, _ => by
    have h0 : ((2 * 0 : Nat) : Int) ≤ 0 := by simp
    cases bytes with
    | nil => simp [parseBaseRelocEntriesLoop, decodePairs]
    | cons b0 tl =>
      cases tl with
      | nil => simp [parseBaseRelocEntriesLoop, decodePairs]
      | cons b1 rest => simp [parseBaseRelocEntriesLoop, decodePairs]
  | m + 1, bytes, h => by
    match bytes with
    | [] => simp at h
    | [b] => simp at h; omega
    | b0 :: b1 :: rest =>
      have hr : 2 * m ≤ rest.length := by
        simp [List.length_cons] at h
        omega
      have hc1 : ¬ ((2 * (m + 1) : Nat) : Int) ≤ 0 := by push_cast; omega
      have hc2 : ¬ ((2 * (m + 1) : Nat) : Int) = 1 := by push_cast; omega
      have hlim : ((2 * (m + 1) : Nat) : Int) - 2 = ((2 * m : Nat) : Int) := by
        push_cast; ring
      simp only [parseBaseRelocEntriesLoop, if_neg hc1, if_neg hc2]
      rw [hlim, parseBaseRelocEntriesLoop_exact m rest hr]
      have ht : (b0 :: b1 :: rest).take (2 * (m + 1)) = b0 :: b1 :: rest.take (2 * m) := by
        have he : 2 * (m + 1) = (2 * m + 1) + 1 := by ring
        rw [he]
        simp [List.take_succ_cons]
      have hd : (b0 :: b1 :: rest).drop (2 * (m + 1)) = rest.drop (2 * m) := by
        have he : 2 * (m + 1) = (2 * m + 1) + 1 := by ring
        rw [he]
        simp [List.drop_succ_cons]
      rw [ht, hd]
      simp [decodePairs]

/-- C4 (amended): a base-relocation block with declared size `bs ≥ 8` and an
even payload size `bs - 8` decodes exactly `(bs - 8) / 2` sixteen-bit entries
from the `bs - 8` payload bytes following the 8-byte header (the declared
size includes the header); when `bs - 8` is odd the limited reader fails on a
partial 16-bit entry instead of decoding `(bs - 8) / 2` entries. -/
theorem parseBaseRelocBlock_count_even (pa bs : Nat) (payload : List Nat)
    (hpa : pa < 4294967296) (hbs : bs < 4294967296) (h8 : 8 ≤ bs)
    (heven : (bs - 8) % 2 = 0) (hlen : bs - 8 ≤ payload.length) :
    parseBaseRelocBlock (enc32 pa ++ enc32 bs ++ payload) =
      .ok ({ PageRelAddr := pa, BlockSize := bs,
             Entries := decodePairs (payload.take (bs - 8)) }, payload.drop (bs - 8)) ∧
    (decodePairs (payload.take (bs - 8))).length = (bs - 8) / 2 := by
  obtain ⟨m, hm⟩ : ∃ m, bs - 8 = 2 * m := ⟨(bs - 8) / 2, by omega⟩
  constructor
  · simp only [enc32, List.cons_append, List.nil_append]
    simp only [parseBaseRelocBlock]
    rw [le32_enc32 pa hpa, le32_enc32 bs hbs]
    have hlim : (bs : Int) - 8 = ((2 * m : Nat) : Int) := by push_cast; omega
    rw [hlim, parseBaseRelocEntriesLoop_exact m payload (by omega)]
    rw [hm]
  · rw [hm, decodePairs_length, List.length_take]
    omega

/-- Counterexample for C4: a block with declared size 9 and its one payload
byte present fails with a truncation error instead of decoding
`(9 - 8) / 2 = 0` entries. -/
theorem parseBaseRelocBlock_odd_cex :
    parseBaseRelocBlock [0, 0, 0, 0, 9, 0, 0, 0, 0] = .error .truncationError ∧
    (9 - 8) / 2 = 0 := by
  decide

/-- Witness for C4: a block with declared size 10 and payload bytes
`[52, 18]` (the 16-bit value 0x1234) decodes exactly one entry, of type 1 and
in-page offset 564. -/
theorem parseBaseRelocBlock_count_even_witness :
    parseBaseRelocBlock [0, 0, 0, 0, 10, 0, 0, 0, 52, 18] =
      .ok ({ PageRelAddr := 0, BlockSize := 10,
             Entries := [{ RelocType := 1, Offset := 564 }] }, []) ∧
    ([{ RelocType := 1, Offset := 564 }] : List BaseRelocEntry).length = (10 - 8) / 2 :=
  parseBaseRelocBlock_count_even 0 10 [52, 18]
    (by decide) (by decide) (by decide) (by decide) (by decide)

/-- C10: a base-relocation block whose declared size is at most 8 (0
included) parses successfully with zero entries: the non-positive remaining
budget is an empty payload, not a malformed size. -/
theorem parseBaseRelocBlock_small_size (pa bs : Nat) (rest : List Nat)
    (hpa : pa < 4294967296) (hbs : bs < 4294967296) (h8 : bs ≤ 8) :
    parseBaseRelocBlock (enc32 pa ++ enc32 bs ++ rest) =
      .ok ({ PageRelAddr := pa, BlockSize := bs, Entries := [] }, rest) := by
  have hneg : (bs : Int) - 8 ≤ 0 := by omega
  simp only [enc32, List.cons_append, List.nil_append]
  simp only [parseBaseRelocBlock]
  rw [le32_enc32 pa hpa, le32_enc32 bs hbs]
  have hloop : parseBaseRelocEntriesLoop ((bs : Int) - 8) rest = .ok ([], rest) := by
    cases rest with
    | nil => simp [parseBaseRelocEntriesLoop]
    | cons b0 tl =>
      cases tl with
      | nil => simp [parseBaseRelocEntriesLoop, h8]
      | cons b1 r => simp [parseBaseRelocEntriesLoop, h8]
  rw [hloop]

/-- Witness for C10: a block with declared size 0 parses successfully with
zero entries, leaving the following bytes untouched. -/
theorem parseBaseRelocBlock_small_size_witness :
    parseBaseRelocBlock [0, 0, 0, 0, 0, 0, 0, 0, 1, 2, 3] =
      .ok ({ PageRelAddr := 0, BlockSize := 0, Entries := [] }, [1, 2, 3]) :=
  parseBaseRelocBlock_small_size 0 0 [1, 2, 3] (by decide) (by decide) (by decide)

theorem rdRawSectionHeader_pos {c : List Nat} {p : Nat} {raw : RawSectionHeader}
    {q : Nat} (h : rdRawSectionHeader c p = some (raw, q)) : q = p + 40 := by
  unfold rdRawSectionHeader at h
  split at h
  · simp at h
    exact h.2.symm
  · cases h

theorem parseDataDirsLoop_length (c : List Nat) (n : Nat) :
    ∀ (p : Nat) (dds : List DataDirectory) (q : Nat),
      parseDataDirsLoop c p n = .ok (dds, q) → dds.length = n := by
  induction n with
  | zero =>
    intro p dds q h
    simp [parseDataDirsLoop] at h
    simp [← h.1]
  | succ m ih =>
    intro p dds q h
    cases hr : rdDataDirectory c p with
    | none => simp [parseDataDirsLoop, hr] at h
    | some v =>
      obtain ⟨dd, r⟩ := v
      simp only [parseDataDirsLoop, hr] at h
      cases hrec : parseDataDirsLoop c r m with
      | error e =>
        rw [hrec] at h
        simp at h
      | ok w =>
        obtain ⟨dds2, q2⟩ := w
        rw [hrec] at h
        simp at h
        rw [← h.1]
        simp [ih r dds2 q2 hrec]

theorem parseSectionHdrsLoop_spec (c : List Nat) (n : Nat) :
    ∀ (p : Nat) (hdrs : List SectionHeader) (q : Nat),
      parseSectionHdrsLoop c p n = .ok (hdrs, q) →
      hdrs.length = n ∧
      ∀ i, i < n →
        ∃ raw, rdRawSectionHeader c (p + 40 * i) = some (raw, p + 40 * i + 40) ∧
          hdrs.getD i emptySectionHeader = goSectionHeader raw := by
  induction n with
  | zero =>
    intro p hdrs q h
    simp [parseSectionHdrsLoop] at h
    refine ⟨by simp [← h.1], ?_⟩
    intro i hi
    omega
  | succ m ih =>
    intro p hdrs q h
    cases hr : rdRawSectionHeader c p with
    | none => simp [parseSectionHdrsLoop, hr] at h
    | some v =>
      obtain ⟨raw, r⟩ := v
      simp only [parseSectionHdrsLoop, hr] at h
      cases hrec : parseSectionHdrsLoop c r m with
      | error e =>
        rw [hrec] at h
        simp at h
      | ok w =>
        obtain ⟨hdrs2, q2⟩ := w
        rw [hrec] at h
        simp at h
        obtain ⟨hh, _⟩ := h
        have hr40 : r = p + 40 := rdRawSectionHeader_pos hr
        subst hr40
        obtain ⟨hlen2, hord2⟩ := ih (p + 40) hdrs2 q2 hrec
        constructor
        · rw [← hh]
          simp [hlen2]
        · intro i hi
          cases i with
          | zero =>
            refine ⟨raw, ?_, ?_⟩
            · simpa using hr
            · rw [← hh]
              simp
          | succ j =>
            have hj : j < m := by omega
            obtain ⟨raw', hraw', hget'⟩ := hord2 j hj
            refine ⟨raw', ?_, ?_⟩
            · have he : p + 40 * (j + 1) = p + 40 + 40 * j := by ring
              rw [he]
              exact hraw'
            · rw [← hh]
              simpa using hget'

/-- C9: after a successful parse, the data-directory table has length exactly
`OptHeader.NDataDirs` and the section-header sequence has length exactly
`FileHeader.NSections`; moreover the section loop reads headers in file
order: the i-th parsed header is decoded from the 40-byte record at position
`p + 40 * i`. -/
theorem parse_table_lengths :
    (∀ (content : List Nat) (f : File), parse content = .ok f →
      f.DataDirs.length = f.OptHdr.NDataDirs ∧
      f.SectHdrs.length = f.FileHdr.NSections) ∧
    (∀ (c : List Nat) (p n : Nat) (hdrs : List SectionHeader) (q : Nat),
      parseSectionHdrsLoop c p n = .ok (hdrs, q) →
      hdrs.length = n ∧
      ∀ i, i < n →
        ∃ raw, rdRawSectionHeader c (p + 40 * i) = some (raw, p + 40 * i + 40) ∧
          hdrs.getD i emptySectionHeader = goSectionHeader raw) := by
  constructor
  · intro content f h
    cases h1 : parseFileHeader content with
    | error e => simp [parse, h1] at h
    | ok v1 =>
      obtain ⟨fileHdr, p1⟩ := v1
      simp only [parse, h1] at h
      cases h2 : parseOptHeader content p1 with
      | error e => rw [h2] at h; simp at h
      | ok v2 =>
        obtain ⟨optHdr, p2⟩ := v2
        simp only [h2] at h
        cases h3 : parseDataDirsLoop content p2 optHdr.NDataDirs with
        | error e => rw [h3] at h; simp at h
        | ok v3 =>
          obtain ⟨dataDirs, p3⟩ := v3
          simp only [h3] at h
          cases h4 : parseSectionHdrsLoop content p3 fileHdr.NSections with
          | error e => rw [h4] at h; simp at h
          | ok v4 =>
            obtain ⟨sectHdrs, p4⟩ := v4
            simp only [h4] at h
            cases h5 : parseDataDirsContentLoop content sectHdrs optHdr
                (content.length + 4294967296) 0 dataDirs {} with
            | error e => rw [h5] at h; simp at h
            | ok dc =>
              simp only [h5] at h
              cases h
              exact ⟨parseDataDirsLoop_length content optHdr.NDataDirs p2 dataDirs p3 h3,
                (parseSectionHdrsLoop_spec content fileHdr.NSections p3 sectHdrs p4 h4).1⟩
  · intro c p n hdrs q h
    exact parseSectionHdrsLoop_spec c n p hdrs q h

set_option maxRecDepth 100000 in
/-- Witness for C9: the 224-byte synthetic image `wContent` (one section, no
data directories) parses to `wFile`, whose table lengths match its headers. -/
theorem parse_table_lengths_witness :
    wFile.DataDirs.length = wFile.OptHdr.NDataDirs ∧
    wFile.SectHdrs.length = wFile.FileHdr.NSections :=
  parse_table_lengths.1 wContent wFile (by decide)

end PE
